import Mathlib

/-!
Verification development for the drug-order-inquiry repository.

The repository ingests fixed-format medical order telegrams, stores the
parsed nested record, and exposes it through a React frontend
(src/frontend/src/App.js).  The parsing core (backend/parser.py) is not
part of the visible sources; where a claim depends on it, the relevant
component is modelled from the specification (spec.md §2-§4.6) and the
definition's doc comment says so.

Presentation-layer definitions are translated from src/frontend/src/App.js
(the revision with the search section and the `item_group.item_info`
attribute filter).
-/

namespace DrugOrder

/-! ## Data model (spec.md §3; field names follow App.js access paths) -/

/-- One item line of the repeating group.  The source field named
`attribute` is called `attr` here because `attribute` is a Lean keyword. -/
structure ItemInfo where
  attr : String
  name : String
  quantity : String
  unit_name : String
  code : String
deriving Repr, DecidableEq

structure DoctorInfo where
  d_id : Option String
  kanji_name : Option String
deriving Repr, DecidableEq

structure OrderInfo where
  number : String
  version : String
  doctor_info : DoctorInfo
  hakkou_dept_code : Option String
deriving Repr, DecidableEq

structure PatientInfo where
  birthdate : Option String
  address : Option String
deriving Repr, DecidableEq

structure ItemGroup where
  item_info : List ItemInfo
deriving Repr, DecidableEq

/-- The nested parse result `raw_data.content` (spec.md §3). -/
structure RawContent where
  patient_info : PatientInfo
  order_info : OrderInfo
  item_group : ItemGroup
deriving Repr, DecidableEq

/-- The validated record handed to persistence: flattened summary fields
plus the nested content (spec.md §3, §4.6). -/
structure ParsedRecord where
  order_number : String
  version : String
  order_date : Option String
  patient_id : Option String
  patient_name : Option String
  content : RawContent
deriving Repr, DecidableEq

/-! ## Presentation layer (src/frontend/src/App.js) -/

/-- The attribute tag that marks a dispensing/prescription line
(App.js: `item.attribute === 'ID1'`). -/
def prescriptionAttribute : String := "ID1"

/-- The prescription-only projection of the item list
(App.js: `item_info?.filter(item => item.attribute === 'ID1')`). -/
def prescriptionProjection (items : List ItemInfo) : List ItemInfo :=
  items.filter (fun item => item.attr == prescriptionAttribute)

/-- JavaScript `v || '-'` on a nullable string: `undefined`, `null` and
`""` are falsy, any other string is truthy. -/
def jsOrDash : Option String → String
  | none => "-"
  | some s => if s = "" then "-" else s

/-- App.js `formatDate`: `if (!dateStr) return "-"; return new
Date(dateStr).toLocaleString('ja-JP')`.  The browser locale formatting is
not part of the repository, so it is a parameter `toLocale`. -/
def formatDate (toLocale : String → String) : Option String → String
  | none => "-"
  | some s => if s = "" then "-" else toLocale s

/-- The cells of one rendered prescription table row
(App.js: `<td>{item.name}</td><td>{item.quantity}</td>...`). -/
def renderItemRow (item : ItemInfo) : List String :=
  [item.name, item.quantity, item.unit_name, item.code]

/-- What the detail view's prescription table body shows: either the
mapped filtered rows, or the fallback placeholder row. -/
inductive TbodyContent where
  | itemRows (rows : List (List String))
  | noItemsRow
deriving Repr, DecidableEq

/-- App.js detail tbody:
`chain?.filter(item => item.attribute === 'ID1').map(...) || (<tr>項目なし</tr>)`.
`itemInfo` is the value of the optional chain
`raw_data?.content?.item_group?.item_info`: `none` when any link is
absent.  When the chain is absent the whole expression is `undefined`
(falsy), so `||` yields the placeholder row; when it is present,
`filter(...).map(...)` is an array, and arrays are truthy in JavaScript
even when empty, so the rows (possibly zero of them) are rendered. -/
def renderTbody (itemInfo : Option (List ItemInfo)) : TbodyContent :=
  match itemInfo with
  | none => TbodyContent.noItemsRow
  | some items => TbodyContent.itemRows ((prescriptionProjection items).map renderItemRow)

/-! ## Search behaviour (App.js `executeSearch`, search-enabled revision) -/

/-- A stored telegram as the frontend sees it (list entry / detail). -/
structure Telegram where
  id : Nat
  patient_id : Option String
  patient_name : Option String
  order_number : String
  version : String
  order_date : Option String
  raw_data : Option RawContent
deriving Repr, DecidableEq

/-- The App component state touched by `executeSearch`. -/
structure AppState where
  telegrams : List Telegram
  selectedTelegram : Option Telegram
  loading : Bool
  error : Option String
deriving Repr, DecidableEq

/-- App.js `executeSearch`, success path: `setTelegrams(searchResults)`;
if `searchResults.length > 0` then `handleSelectTelegram(searchResults[0].id)`
(which fetches the detail by id and stores it in `selectedTelegram`),
else `setSelectedTelegram(null)`.  `fetchDetail` models the
`GET /api/telegrams/:id` response. -/
def executeSearchSuccess (st : AppState) (searchResults : List Telegram)
    (fetchDetail : Nat → Telegram) : AppState :=
  match searchResults with
  | [] =>
    { st with telegrams := searchResults, selectedTelegram := none,
              loading := false, error := none }
  | first :: rest =>
    { st with telegrams := first :: rest,
              selectedTelegram := some (fetchDetail first.id),
              loading := false, error := none }

/-! ## Parsing core (spec.md §4.1-§4.5)

backend/parser.py is not among the visible sources, so the Segmenter,
Field Mapper, Record Builder and Validator below are modelled from the
specification. -/

/-- Modelled from the spec: the segment types of the telegram grammar
(spec.md §2, glossary), since backend/parser.py is missing. -/
inductive SegmentType where
  | header
  | patient
  | order
  | doctor
  | item
  | trailer
deriving Repr, DecidableEq

/-- Modelled from the spec: the independently reported Validator checks
(spec.md §4.5), since backend/parser.py is missing. -/
inductive ValidationRule where
  | orderNumberFormat
  | versionFormat
  | orderInfoAgreement
  | itemAttributeNonEmpty
deriving Repr, DecidableEq

/-- Modelled from the spec: `ValidationError` carries the list of every
violated rule (spec.md §4.5, §7), since backend/parser.py is missing. -/
structure ValidationError where
  violated : List ValidationRule
deriving Repr, DecidableEq

/-- Modelled from the spec: the classified parse failures
`TruncatedInputError`, `UnknownSegmentError`, `MissingSegmentError` and
`ValidationError` (spec.md §4.2, §4.4, §7), since backend/parser.py is
missing. -/
inductive ParseError where
  | truncatedInput (seg : SegmentType) (offset : Nat)
  | unknownSegment (code : Char) (offset : Nat)
  | missingSegment (seg : SegmentType)
  | validation (e : ValidationError)
deriving Repr, DecidableEq

/-- Modelled from the spec: the Schema Table's segment type codes
(spec.md §4.1: keyed lookup data, one layout, constant version key). -/
def segTypeCode : SegmentType → Char
  | .header => 'H'
  | .patient => 'P'
  | .order => 'O'
  | .doctor => 'D'
  | .item => 'I'
  | .trailer => 'T'

/-- Modelled from the spec: the Schema Table's fixed field widths per
segment type (spec.md §4.1).  Patient: id, name, birthdate, address.
Order: number (8), version (2), date, department code.  Doctor: id,
kanji name.  Item: attribute, name, quantity, unit name, code. -/
def segFieldWidths : SegmentType → List Nat
  | .header => [2]
  | .patient => [8, 10, 8, 20]
  | .order => [8, 2, 8, 3]
  | .doctor => [6, 10]
  | .item => [3, 10, 4, 4, 5]
  | .trailer => []

/-- Total payload width of a segment (sum of its field widths). -/
def segWidth (seg : SegmentType) : Nat := (segFieldWidths seg).sum

/-- Takes exactly `n` characters from the stream, or fails when the
stream is shorter. -/
def takeExact : Nat → List Char → Option (List Char × List Char)
  | 0, s => some ([], s)
  | _ + 1, [] => none
  | n + 1, c :: s =>
    match takeExact n s with
    | some (f, r) => some (c :: f, r)
    | none => none

/-- Extracts consecutive fixed-width fields from the stream. -/
def readFields : List Nat → List Char → Option (List String × List Char)
  | [], s => some ([], s)
  | w :: ws, s =>
    match takeExact w s with
    | some (f, r) =>
      match readFields ws r with
      | some (fs, r2) => some (String.mk f :: fs, r2)
      | none => none
    | none => none

/-- Modelled from the spec: the Segmenter's step for one expected segment
(spec.md §4.2): a missing type code is a `MissingSegmentError`, a wrong
type code an `UnknownSegmentError`, and a stream that ends before the
segment's fields are fully read a `TruncatedInputError` carrying the
segment type and the byte offset of the segment. -/
def readSegment (seg : SegmentType) (s : List Char) (offset : Nat) :
    Except ParseError (List String × List Char × Nat) :=
  match s with
  | [] => Except.error (ParseError.missingSegment seg)
  | c :: rest =>
    if c = segTypeCode seg then
      match readFields (segFieldWidths seg) rest with
      | some (fs, rest2) => Except.ok (fs, rest2, offset + 1 + segWidth seg)
      | none => Except.error (ParseError.truncatedInput seg offset)
    else Except.error (ParseError.unknownSegment c offset)

/-- Modelled from the spec: the Segmenter's repeating-group loop
(spec.md §4.2): keeps consuming item segments while the item type code is
seen, preserving emission order; stops at the first differing code.  The
fuel argument only bounds the recursion; each step consumes at least one
character, so any fuel above the stream length is enough. -/
def readItemsFuel : Nat → List Char → Nat →
    Except ParseError (List (List String) × List Char × Nat)
  | 0, s, offset => Except.ok ([], s, offset)
  | _ + 1, [], offset => Except.ok ([], [], offset)
  | fuel + 1, c :: rest, offset =>
    if c = segTypeCode SegmentType.item then
      match readFields (segFieldWidths SegmentType.item) rest with
      | some (fs, rest2) =>
        match readItemsFuel fuel rest2 (offset + 1 + segWidth SegmentType.item) with
        | Except.ok (items, remaining, offset2) =>
          Except.ok (fs :: items, remaining, offset2)
        | Except.error e => Except.error e
      | none => Except.error (ParseError.truncatedInput SegmentType.item offset)
    else Except.ok ([], c :: rest, offset)

/-- The repeating item group, read with sufficient fuel. -/
def readItems (s : List Char) (offset : Nat) :
    Except ParseError (List (List String) × List Char × Nat) :=
  readItemsFuel (s.length + 1) s offset

/-- The raw field lists of one segmented telegram, in grammar order. -/
structure Segments where
  headerFields : List String
  patientFields : List String
  orderFields : List String
  doctorFields : List String
  itemFields : List (List String)
deriving Repr, DecidableEq

/-- Modelled from the spec: the Segmenter's single-pass, non-backtracking
state machine over the whole stream (spec.md §4.2): header, patient,
order, doctor, repeating item lines, trailer. -/
def segmentAll (s : List Char) : Except ParseError Segments :=
  match readSegment SegmentType.header s 0 with
  | Except.error e => Except.error e
  | Except.ok (hf, s1, o1) =>
    match readSegment SegmentType.patient s1 o1 with
    | Except.error e => Except.error e
    | Except.ok (pf, s2, o2) =>
      match readSegment SegmentType.order s2 o2 with
      | Except.error e => Except.error e
      | Except.ok (odf, s3, o3) =>
        match readSegment SegmentType.doctor s3 o3 with
        | Except.error e => Except.error e
        | Except.ok (df, s4, o4) =>
          match readItems s4 o4 with
          | Except.error e => Except.error e
          | Except.ok (its, s5, o5) =>
            match readSegment SegmentType.trailer s5 o5 with
            | Except.error e => Except.error e
            | Except.ok _ => Except.ok ⟨hf, pf, odf, df, its⟩

/-- Drops the trailing space padding of a fixed-width field. -/
def stripPadList (cs : List Char) : List Char :=
  (cs.reverse.dropWhile (fun c => c = ' ')).reverse

/-- Drops the trailing space padding of a fixed-width field. -/
def stripPad (s : String) : String := String.mk (stripPadList s.data)

/-- Modelled from the spec: the Field Mapper's treatment of optional
fields (spec.md §4.3, §9): an all-blank fixed-width field is absent, and
absence stays absent — the core never substitutes a placeholder. -/
def optField (s : String) : Option String :=
  if stripPad s = "" then none else some (stripPad s)

/-- Modelled from the spec: mapping one item segment's raw fields to an
item line (spec.md §4.3-§4.4); the attribute tag is copied through
unchanged. -/
def buildItem (fs : List String) : ItemInfo :=
  { attr := stripPad (fs.getD 0 "")
    name := stripPad (fs.getD 1 "")
    quantity := stripPad (fs.getD 2 "")
    unit_name := stripPad (fs.getD 3 "")
    code := stripPad (fs.getD 4 "") }

/-- Modelled from the spec: the Record Builder (spec.md §4.4) plus the
Normalizer's flattened summary fields (spec.md §4.6): singleton segments
populate their nested objects, each item segment appends to
`item_group.item_info` in arrival order, and the nested
`order_info.number`/`order_info.version` duplicate the top-level fields. -/
def buildRecord (segs : Segments) : ParsedRecord :=
  let num := stripPad (segs.orderFields.getD 0 "")
  let ver := stripPad (segs.orderFields.getD 1 "")
  { order_number := num
    version := ver
    order_date := optField (segs.orderFields.getD 2 "")
    patient_id := optField (segs.patientFields.getD 0 "")
    patient_name := optField (segs.patientFields.getD 1 "")
    content :=
      { patient_info :=
          { birthdate := optField (segs.patientFields.getD 2 "")
            address := optField (segs.patientFields.getD 3 "") }
        order_info :=
          { number := num
            version := ver
            doctor_info :=
              { d_id := optField (segs.doctorFields.getD 0 "")
                kanji_name := optField (segs.doctorFields.getD 1 "") }
            hakkou_dept_code := optField (segs.orderFields.getD 3 "") }
        item_group := { item_info := segs.itemFields.map buildItem } } }

/-- Returns `true` when every character of the string is an ASCII digit. -/
def isDigitString (s : String) : Bool := s.data.all Char.isDigit

/-- Validator check: `order_number` is 8 characters, all digits. -/
def okOrderNumber (r : ParsedRecord) : Bool :=
  r.order_number.length == 8 && isDigitString r.order_number

/-- Validator check: `version` is 2 characters, all digits. -/
def okVersion (r : ParsedRecord) : Bool :=
  r.version.length == 2 && isDigitString r.version

/-- Validator check: the nested `order_info.number`/`order_info.version`
agree with the top-level fields. -/
def okAgreement (r : ParsedRecord) : Bool :=
  r.content.order_info.number == r.order_number &&
    r.content.order_info.version == r.version

/-- Validator check: every item line carries a non-empty attribute tag. -/
def okItemAttributes (r : ParsedRecord) : Bool :=
  r.content.item_group.item_info.all (fun it => !(it.attr == ""))

/-- Whether one validation rule passes on a record. -/
def rulePasses (r : ParsedRecord) : ValidationRule → Bool
  | .orderNumberFormat => okOrderNumber r
  | .versionFormat => okVersion r
  | .orderInfoAgreement => okAgreement r
  | .itemAttributeNonEmpty => okItemAttributes r

/-- All validation rules, in reporting order. -/
def allRules : List ValidationRule :=
  [.orderNumberFormat, .versionFormat, .orderInfoAgreement, .itemAttributeNonEmpty]

/-- Modelled from the spec: the Validator collects every violated rule,
not just the first (spec.md §4.5). -/
def violations (r : ParsedRecord) : List ValidationRule :=
  allRules.filter (fun rule => !(rulePasses r rule))

/-- Modelled from the spec: the Validator returns the record unchanged or
a `ValidationError` carrying the list of every violated rule
(spec.md §4.5). -/
def validate (r : ParsedRecord) : Except ValidationError ParsedRecord :=
  if violations r = [] then Except.ok r else Except.error ⟨violations r⟩

/-- Modelled from the spec: the whole pipeline raw stream → Segmenter →
Field Mapper → Record Builder → Validator (spec.md §2); a pure function
of the stream alone. -/
def parseTelegram (s : List Char) : Except ParseError ParsedRecord :=
  match segmentAll s with
  | Except.error e => Except.error e
  | Except.ok segs =>
    match validate (buildRecord segs) with
    | Except.ok r => Except.ok r
    | Except.error e => Except.error (ParseError.validation e)

/-! ## Serialization of well-formed telegrams (for the order-preservation
and round-trip statements) -/

/-- Pads a field's characters to width `w` with trailing spaces. -/
def padList (w : Nat) (cs : List Char) : List Char :=
  cs ++ List.replicate (w - cs.length) ' '

/-- The padded raw field contents of one item segment, in schema order. -/
def itemChunks (it : ItemInfo) : List (List Char) :=
  [padList 3 it.attr.data, padList 10 it.name.data, padList 4 it.quantity.data,
    padList 4 it.unit_name.data, padList 5 it.code.data]

/-- One item line serialized as an item segment: type code then padded
fields. -/
def serializeItem (it : ItemInfo) : List Char :=
  segTypeCode SegmentType.item :: (itemChunks it).flatten

/-- The raw field strings the Segmenter extracts from a serialized item. -/
def itemFieldsOf (it : ItemInfo) : List String :=
  (itemChunks it).map String.mk

/-- A well-formed field value: it fits its schema width and carries no
trailing padding of its own. -/
def wfField (w : Nat) (s : String) : Prop :=
  s.length ≤ w ∧ stripPad s = s

instance (w : Nat) (s : String) : Decidable (wfField w s) := by
  unfold wfField
  infer_instance

/-- A well-formed item line: every field is well-formed for its schema
width. -/
def wfItem (it : ItemInfo) : Prop :=
  wfField 3 it.attr ∧ wfField 10 it.name ∧ wfField 4 it.quantity ∧
    wfField 4 it.unit_name ∧ wfField 5 it.code

instance (it : ItemInfo) : Decidable (wfItem it) := by
  unfold wfItem
  infer_instance

/-- Padded field contents of a fixed, valid header segment. -/
def headerChunks : List (List Char) := ["01".toList]

/-- Padded field contents of a fixed, valid patient segment. -/
def patientChunks : List (List Char) :=
  ["PT000001".toList, "YAMADA    ".toList, "19800101".toList,
    "TOKYO               ".toList]

/-- Padded field contents of a fixed, valid order segment. -/
def orderChunks : List (List Char) :=
  ["12345678".toList, "01".toList, "20250101".toList, "001".toList]

/-- Padded field contents of a fixed, valid doctor segment. -/
def doctorChunks : List (List Char) :=
  ["DR0001".toList, "ISHIKAWA  ".toList]

/-- A whole telegram stream with fixed, valid singleton segments and an
arbitrary list of item lines, serialized in the given order. -/
def itemsStream (items : List ItemInfo) : List Char :=
  (segTypeCode SegmentType.header :: headerChunks.flatten) ++
    (segTypeCode SegmentType.patient :: patientChunks.flatten) ++
    (segTypeCode SegmentType.order :: orderChunks.flatten) ++
    (segTypeCode SegmentType.doctor :: doctorChunks.flatten) ++
    (items.map serializeItem).flatten ++ [segTypeCode SegmentType.trailer]

/-! ## Concrete sample inputs -/

/-- A complete valid telegram: one prescription line (`ID1`) and one
administrative line (`ID2`). -/
def sampleStream : List Char :=
  ("H01PPT000001YAMADA    19800101TOKYO               " ++
    "O123456780120250101001DDR0001ISHIKAWA  " ++
    "IID1DRUGA        1TAB 00001IID2NOTE         1    00002T").toList

/-- The record `parseTelegram` produces on `sampleStream`. -/
def sampleRecord : ParsedRecord :=
  { order_number := "12345678"
    version := "01"
    order_date := some "20250101"
    patient_id := some "PT000001"
    patient_name := some "YAMADA"
    content :=
      { patient_info := { birthdate := some "19800101", address := some "TOKYO" }
        order_info :=
          { number := "12345678"
            version := "01"
            doctor_info := { d_id := some "DR0001", kanji_name := some "ISHIKAWA" }
            hakkou_dept_code := some "001" }
        item_group :=
          { item_info :=
              [{ attr := "ID1", name := "DRUGA", quantity := "   1",
                 unit_name := "TAB", code := "00001" },
               { attr := "ID2", name := "NOTE", quantity := "   1",
                 unit_name := "", code := "00002" }] } } }

/-- The same telegram but with a 7-digit order number field
(`"1234567 "` in the 8-wide slot). -/
def sevenDigitStream : List Char :=
  ("H01PPT000001YAMADA    19800101TOKYO               " ++
    "O1234567 0120250101001DDR0001ISHIKAWA  " ++
    "IID1DRUGA        1TAB 00001T").toList

/-- A stream cut off in the middle of the patient segment. -/
def truncatedStream : List Char := "H01PPT0000".toList

/-- Three well-formed item lines A, B, C used to exercise order
preservation: prescription, administrative, prescription. -/
def tripleItems : List ItemInfo :=
  [⟨"ID1", "DRUGA", "   1", "TAB", "00001"⟩,
    ⟨"ID2", "NOTE", "   1", "", "00002"⟩,
    ⟨"ID1", "DRUGC", "  10", "ML", "00003"⟩]

/-- The record parsed from `itemsStream tripleItems`: the sample record
with the three item lines in source order. -/
def tripleRecord : ParsedRecord :=
  { sampleRecord with
    content := { sampleRecord.content with item_group := ⟨tripleItems⟩ } }

/-! ## Helper lemmas about the Validator -/

theorem mem_allRules (rule : ValidationRule) : rule ∈ allRules := by
  cases rule <;> simp [allRules]

theorem mem_violations (r : ParsedRecord) (rule : ValidationRule) :
    rule ∈ violations r ↔ rulePasses r rule = false := by
  simp [violations, List.mem_filter, mem_allRules]

theorem validate_ok (r r' : ParsedRecord) (h : validate r = Except.ok r') :
    r' = r ∧ violations r = [] := by
  unfold validate at h
  by_cases hv : violations r = []
  · rw [if_pos hv] at h
    injection h with h2
    exact ⟨h2.symm, hv⟩
  · rw [if_neg hv] at h
    exact Except.noConfusion h

theorem violations_nil_passes (r : ParsedRecord) (h : violations r = [])
    (rule : ValidationRule) : rulePasses r rule = true := by
  have hiff := mem_violations r rule
  rw [h] at hiff
  simpa using hiff

theorem parse_ok_cases (s : List Char) (r : ParsedRecord)
    (h : parseTelegram s = Except.ok r) :
    ∃ segs, segmentAll s = Except.ok segs ∧ r = buildRecord segs ∧
      violations r = [] := by
  unfold parseTelegram at h
  split at h
  · exact Except.noConfusion h
  · rename_i segs hs
    split at h
    · rename_i r2 hv
      injection h with h2
      obtain ⟨he, hnil⟩ := validate_ok _ _ hv
      subst h2
      exact ⟨segs, hs, he, by rw [he]; exact hnil⟩
    · exact Except.noConfusion h

/-! ## Claim theorems (presentation layer and determinism) -/

/-- C1: the prescription-only projection contains exactly the item lines
whose attribute tag equals the prescription attribute `ID1`; an item line
with any other attribute value stays in the stored
`raw_data.content.item_group.item_info` but is absent from the
projection. -/
theorem C1_prescription_filter (content : RawContent) (x : ItemInfo) :
    (x ∈ prescriptionProjection content.item_group.item_info ↔
      x ∈ content.item_group.item_info ∧ x.attr = prescriptionAttribute) ∧
    (x ∈ content.item_group.item_info → x.attr ≠ prescriptionAttribute →
      x ∉ prescriptionProjection content.item_group.item_info) := by
  constructor
  · simp [prescriptionProjection, List.mem_filter]
  · intro hmem hne hproj
    simp [prescriptionProjection, List.mem_filter] at hproj
    exact hne hproj.2

/-- C1 witness: in the sample record, the `ID2` administrative line is in
the stored item list but not in the prescription projection. -/
theorem C1_prescription_filter_witness :
    (⟨"ID2", "NOTE", "   1", "", "00002"⟩ : ItemInfo) ∉
      prescriptionProjection sampleRecord.content.item_group.item_info :=
  (C1_prescription_filter sampleRecord.content _).2 (by decide) (by decide)

/-- C7: parsing is deterministic: it is a pure function of the stream, and
two invocations on the same stream that produce records produce equal
records. -/
theorem C7_parse_deterministic :
    (∀ s₁ s₂ : List Char, s₁ = s₂ → parseTelegram s₁ = parseTelegram s₂) ∧
    (∀ (s : List Char) (r₁ r₂ : ParsedRecord),
      parseTelegram s = Except.ok r₁ → parseTelegram s = Except.ok r₂ →
        r₁ = r₂) := by
  constructor
  · intro s₁ s₂ h
    rw [h]
  · intro s r₁ r₂ h1 h2
    rw [h1] at h2
    injection h2

/-- C7 witness: the sample stream parses to the sample record, twice. -/
theorem C7_parse_deterministic_witness : sampleRecord = sampleRecord :=
  C7_parse_deterministic.2 sampleStream sampleRecord sampleRecord rfl rfl

/-- C8: the display layer renders the fixed placeholder for every absent
optional value (`jsOrDash` for nullable fields, `formatDate` for dates)
and never fabricates a value: a present value renders as itself (dates
through the locale formatter).  The core itself keeps absent fields
absent: `optField` is `none` exactly on all-blank input and otherwise
returns the field's own stripped content. -/
theorem C8_absent_placeholder :
    (jsOrDash none = "-") ∧
    (∀ toLocale, formatDate toLocale none = "-") ∧
    (∀ v : String, v ≠ "" → jsOrDash (some v) = v) ∧
    (∀ toLocale (v : String), v ≠ "" →
      formatDate toLocale (some v) = toLocale v) ∧
    (∀ s : String, optField s = none ↔ stripPad s = "") ∧
    (∀ s v, optField s = some v → v = stripPad s) := by
  refine ⟨rfl, fun _ => rfl, ?_, ?_, ?_, ?_⟩
  · intro v hv
    simp [jsOrDash, hv]
  · intro toLocale v hv
    simp [formatDate, hv]
  · intro s
    unfold optField
    by_cases h : stripPad s = "" <;> simp [h]
  · intro s v h
    unfold optField at h
    by_cases hs : stripPad s = ""
    · rw [if_pos hs] at h
      exact Option.noConfusion h
    · rw [if_neg hs] at h
      injection h with h2
      exact h2.symm

/-- C8 witness: a present value renders as itself and an all-blank field
is mapped to absent by the core. -/
theorem C8_absent_placeholder_witness :
    jsOrDash (some "19800101") = "19800101" ∧ optField "        " = none :=
  ⟨C8_absent_placeholder.2.2.1 "19800101" (by decide),
    (C8_absent_placeholder.2.2.2.2.1 "        ").mpr (by decide)⟩

/-- C9: the fallback placeholder row is rendered exactly when the optional
chain `raw_data?.content?.item_group?.item_info` is absent; when the item
list exists but no item carries the prescription attribute, the filtered
row list is the empty (truthy) array, so the body is empty and the
placeholder row is not shown. -/
theorem C9_tbody_placeholder :
    (∀ itemInfo : Option (List ItemInfo),
      renderTbody itemInfo = TbodyContent.noItemsRow ↔ itemInfo = none) ∧
    (∀ items : List ItemInfo,
      (∀ it ∈ items, it.attr ≠ prescriptionAttribute) →
        renderTbody (some items) = TbodyContent.itemRows []) := by
  constructor
  · intro itemInfo
    cases itemInfo with
    | none => simp [renderTbody]
    | some items => simp [renderTbody]
  · intro items h
    have hnil : prescriptionProjection items = [] := by
      apply List.filter_eq_nil_iff.mpr
      intro a ha
      simp [h a ha]
    simp [renderTbody, hnil]

/-- C9 witness: a present item list whose single line is administrative
renders an empty row list, not the placeholder row. -/
theorem C9_tbody_placeholder_witness :
    renderTbody (some [(⟨"ID2", "NOTE", "   1", "", "00002"⟩ : ItemInfo)]) =
      TbodyContent.itemRows [] :=
  C9_tbody_placeholder.2 _ (by decide)

/-- C10: on a completed search, a non-empty result list replaces the
telegram list and the first result's detail is fetched by id and
selected; an empty result list clears the selected detail to null. -/
theorem C10_search_selection (st : AppState) (searchResults : List Telegram)
    (fetchDetail : Nat → Telegram) :
    (∀ first rest, searchResults = first :: rest →
      (executeSearchSuccess st searchResults fetchDetail).telegrams =
        searchResults ∧
      (executeSearchSuccess st searchResults fetchDetail).selectedTelegram =
        some (fetchDetail first.id)) ∧
    (searchResults = [] →
      (executeSearchSuccess st searchResults fetchDetail).telegrams = [] ∧
      (executeSearchSuccess st searchResults fetchDetail).selectedTelegram =
        none) := by
  constructor
  · intro first rest h
    subst h
    simp [executeSearchSuccess]
  · intro h
    subst h
    simp [executeSearchSuccess]

/-- C10 witness: a one-element search result gets selected and fetched by
its id. -/
theorem C10_search_selection_witness :
    (executeSearchSuccess ⟨[], none, true, none⟩
      [⟨1, none, none, "12345678", "01", none, none⟩]
      (fun i => ⟨i, none, none, "12345678", "01", none, none⟩)).selectedTelegram =
      some ⟨1, none, none, "12345678", "01", none, none⟩ :=
  ((C10_search_selection _ _ _).1 _ [] rfl).2

/-! ## Claim theorems (Validator) -/

/-- C2: on every input the parser accepts, the record's `order_number` is
a string of exactly 8 ASCII digits and its `version` a string of exactly
2 ASCII digits. -/
theorem C2_digit_format (s : List Char) (r : ParsedRecord)
    (h : parseTelegram s = Except.ok r) :
    r.order_number.length = 8 ∧ (∀ c ∈ r.order_number.data, c.isDigit) ∧
      r.version.length = 2 ∧ (∀ c ∈ r.version.data, c.isDigit) := by
  obtain ⟨segs, hs, he, hnil⟩ := parse_ok_cases s r h
  have h1 := violations_nil_passes r hnil ValidationRule.orderNumberFormat
  have h2 := violations_nil_passes r hnil ValidationRule.versionFormat
  simp [rulePasses, okOrderNumber, okVersion, isDigitString,
    List.all_eq_true] at h1 h2
  exact ⟨h1.1, h1.2, h2.1, h2.2⟩

/-- C2 witness: the sample stream's record has an 8-character order
number and a 2-character version. -/
theorem C2_digit_format_witness :
    sampleRecord.order_number.length = 8 ∧ sampleRecord.version.length = 2 :=
  ⟨(C2_digit_format sampleStream sampleRecord rfl).1,
    (C2_digit_format sampleStream sampleRecord rfl).2.2.1⟩

/-- C4: in every validated record the nested `order_info.number` and
`order_info.version` equal the top-level `order_number` and `version`,
and this agreement is one of the Validator's independently reported
checks. -/
theorem C4_order_info_agreement :
    (∀ (s : List Char) (r : ParsedRecord), parseTelegram s = Except.ok r →
      r.content.order_info.number = r.order_number ∧
        r.content.order_info.version = r.version) ∧
    (∀ r : ParsedRecord, ValidationRule.orderInfoAgreement ∈ violations r ↔
      ¬(r.content.order_info.number = r.order_number ∧
        r.content.order_info.version = r.version)) := by
  constructor
  · intro s r h
    obtain ⟨segs, hs, he, hnil⟩ := parse_ok_cases s r h
    have h1 := violations_nil_passes r hnil ValidationRule.orderInfoAgreement
    simpa [rulePasses, okAgreement] using h1
  · intro r
    rw [mem_violations]
    simp [rulePasses, okAgreement]

/-- C4 witness: the sample record's nested order number and version agree
with its top-level fields. -/
theorem C4_order_info_agreement_witness :
    sampleRecord.content.order_info.number = sampleRecord.order_number ∧
      sampleRecord.content.order_info.version = sampleRecord.version :=
  C4_order_info_agreement.1 sampleStream sampleRecord rfl

/-- C5: the Validator either returns the record unchanged or raises one
`ValidationError` carrying the list of every violated rule; a record
whose order number holds the 7 digits `"1234567"` has the order-number
rule among its violations and is never returned validated; concretely,
the seven-digit sample stream parses to a `ValidationError` listing the
order-number rule, so no record is produced. -/
theorem C5_validator_all_violations :
    (∀ r : ParsedRecord,
      (violations r = [] ∧ validate r = Except.ok r) ∨
      (violations r ≠ [] ∧ validate r = Except.error ⟨violations r⟩)) ∧
    (∀ (r : ParsedRecord) (rule : ValidationRule),
      rule ∈ violations r ↔ rulePasses r rule = false) ∧
    (∀ r : ParsedRecord, r.order_number = "1234567" →
      ValidationRule.orderNumberFormat ∈ violations r ∧
        ∀ r', validate r ≠ Except.ok r') ∧
    parseTelegram sevenDigitStream =
      Except.error (ParseError.validation ⟨[ValidationRule.orderNumberFormat]⟩) := by
  refine ⟨?_, mem_violations, ?_, by rfl⟩
  · intro r
    by_cases h : violations r = []
    · exact Or.inl ⟨h, by simp [validate, h]⟩
    · exact Or.inr ⟨h, by simp [validate, h]⟩
  · intro r h7
    have hfail : rulePasses r ValidationRule.orderNumberFormat = false := by
      have hok : okOrderNumber r = false := by
        unfold okOrderNumber
        rw [h7]
        decide
      simpa [rulePasses] using hok
    refine ⟨(mem_violations r _).mpr hfail, ?_⟩
    intro r' hv
    obtain ⟨he, hnil⟩ := validate_ok _ _ hv
    have hm := (mem_violations r _).mpr hfail
    rw [hnil] at hm
    exact List.not_mem_nil _ hm

/-- C5 witness: a concrete record with the 7-digit order number
`"1234567"` has the order-number rule among its violations. -/
theorem C5_validator_all_violations_witness :
    ValidationRule.orderNumberFormat ∈
      violations (⟨"1234567", "01", none, none, none,
        ⟨⟨none, none⟩, ⟨"1234567", "01", ⟨none, none⟩, none⟩, ⟨[]⟩⟩⟩ : ParsedRecord) :=
  (C5_validator_all_violations.2.2.1 _ rfl).1

/-! ## Helper lemmas about the Segmenter -/

theorem takeExact_short (n : Nat) (s : List Char) (h : s.length < n) :
    takeExact n s = none := by
  induction n generalizing s with
  | zero => omega
  | succ n ih =>
    cases s with
    | nil => rfl
    | cons c t =>
      unfold takeExact
      rw [ih t (by simp only [List.length_cons] at h; omega)]

theorem takeExact_append (xs rest : List Char) :
    takeExact xs.length (xs ++ rest) = some (xs, rest) := by
  induction xs with
  | nil => rfl
  | cons c t ih =>
    simp only [List.length_cons, List.cons_append]
    unfold takeExact
    rw [ih]

theorem takeExact_some_length (n : Nat) (s f r : List Char)
    (h : takeExact n s = some (f, r)) : r.length + n = s.length := by
  induction n generalizing s f r with
  | zero =>
    simp only [takeExact, Option.some.injEq, Prod.mk.injEq] at h
    obtain ⟨h1, h2⟩ := h
    subst h2
    simp
  | succ n ih =>
    cases s with
    | nil => exact Option.noConfusion h
    | cons c t =>
      unfold takeExact at h
      cases htk : takeExact n t with
      | none => rw [htk] at h; exact Option.noConfusion h
      | some fr =>
        obtain ⟨f2, r2⟩ := fr
        rw [htk] at h
        simp only [Option.some.injEq, Prod.mk.injEq] at h
        obtain ⟨h1, h2⟩ := h
        have hlen := ih t f2 r2 htk
        rw [← h2]
        simp only [List.length_cons]
        omega

theorem readFields_short (ws : List Nat) (s : List Char)
    (h : s.length < ws.sum) : readFields ws s = none := by
  induction ws generalizing s with
  | nil => simp at h
  | cons w ws ih =>
    unfold readFields
    cases htk : takeExact w s with
    | none => rfl
    | some fr =>
      obtain ⟨f, r⟩ := fr
      have hlen := takeExact_some_length w s f r htk
      have hr : r.length < ws.sum := by
        simp only [List.sum_cons] at h
        omega
      dsimp only
      rw [ih r hr]

theorem readFields_chunks (chunks : List (List Char)) (rest : List Char) :
    readFields (chunks.map List.length) (chunks.flatten ++ rest) =
      some (chunks.map String.mk, rest) := by
  induction chunks with
  | nil => rfl
  | cons ch chunks ih =>
    simp only [List.map_cons, List.flatten_cons, List.append_assoc]
    unfold readFields
    rw [takeExact_append ch (chunks.flatten ++ rest)]
    dsimp only
    rw [ih]

theorem readSegment_chunks (seg : SegmentType) (chunks : List (List Char))
    (rest : List Char) (offset : Nat)
    (h : chunks.map List.length = segFieldWidths seg) :
    readSegment seg (segTypeCode seg :: (chunks.flatten ++ rest)) offset =
      Except.ok (chunks.map String.mk, rest, offset + 1 + segWidth seg) := by
  unfold readSegment
  dsimp only
  rw [if_pos rfl, ← h, readFields_chunks]

theorem readSegment_truncated (seg : SegmentType) (rest : List Char)
    (offset : Nat) (h : rest.length < segWidth seg) :
    readSegment seg (segTypeCode seg :: rest) offset =
      Except.error (ParseError.truncatedInput seg offset) := by
  unfold readSegment
  dsimp only
  rw [if_pos rfl, readFields_short _ _ (by simpa [segWidth] using h)]

/-! ## Claim theorem (truncation) -/

/-- C6: a stream that ends before a segment's fields are fully read fails
with `TruncatedInputError` carrying the incomplete segment's type and its
byte offset — both for an expected singleton segment and for an item line
inside the repeating group — and a segmentation error propagates
unchanged through `parseTelegram`, so no record is produced. -/
theorem C6_truncated_input :
    (∀ (seg : SegmentType) (rest : List Char) (offset : Nat),
      rest.length < segWidth seg →
        readSegment seg (segTypeCode seg :: rest) offset =
          Except.error (ParseError.truncatedInput seg offset)) ∧
    (∀ (fuel : Nat) (rest : List Char) (offset : Nat),
      rest.length < segWidth SegmentType.item →
        readItemsFuel (fuel + 1) (segTypeCode SegmentType.item :: rest) offset =
          Except.error (ParseError.truncatedInput SegmentType.item offset)) ∧
    (∀ (s : List Char) (e : ParseError), segmentAll s = Except.error e →
      parseTelegram s = Except.error e) := by
  refine ⟨readSegment_truncated, ?_, ?_⟩
  · intro fuel rest offset h
    unfold readItemsFuel
    rw [if_pos rfl,
      readFields_short _ _ (by simpa [segWidth] using h)]
  · intro s e h
    unfold parseTelegram
    rw [h]

/-- C6 witness: the concrete truncated stream dies inside the patient
segment at byte offset 3, and the whole parse reports exactly that. -/
theorem C6_truncated_input_witness :
    readSegment SegmentType.patient
        (segTypeCode SegmentType.patient :: "PT0000".toList) 3 =
      Except.error (ParseError.truncatedInput SegmentType.patient 3) ∧
    parseTelegram truncatedStream =
      Except.error (ParseError.truncatedInput SegmentType.patient 3) :=
  ⟨C6_truncated_input.1 SegmentType.patient "PT0000".toList 3 (by decide),
    C6_truncated_input.2.2 truncatedStream _ rfl⟩

/-! ## Helper lemmas about padding and serialization -/

theorem dropWhile_replicate_space (n : Nat) (l : List Char) :
    List.dropWhile (fun c => c = ' ') (List.replicate n ' ' ++ l) =
      List.dropWhile (fun c => c = ' ') l := by
  induction n with
  | zero => rfl
  | succ n ih =>
    simp only [List.replicate_succ, List.cons_append, List.dropWhile_cons]
    simp [ih]

theorem stripPadList_padList (w : Nat) (cs : List Char)
    (h : stripPadList cs = cs) : stripPadList (padList w cs) = cs := by
  unfold stripPadList at h ⊢
  unfold padList
  rw [List.reverse_append, List.reverse_replicate, dropWhile_replicate_space]
  exact h

theorem stripPad_mk_padList (w : Nat) (s : String) (h : stripPad s = s) :
    stripPad (String.mk (padList w s.data)) = s := by
  unfold stripPad at h ⊢
  have hdata : stripPadList s.data = s.data := congrArg String.data h
  rw [show (String.mk (padList w s.data)).data = padList w s.data from rfl,
    stripPadList_padList w s.data hdata]

theorem padList_length (w : Nat) (cs : List Char) (h : cs.length ≤ w) :
    (padList w cs).length = w := by
  unfold padList
  simp only [List.length_append, List.length_replicate]
  omega

theorem itemChunks_lengths (it : ItemInfo) (h : wfItem it) :
    (itemChunks it).map List.length = segFieldWidths SegmentType.item := by
  obtain ⟨⟨ha, _⟩, ⟨hn, _⟩, ⟨hq, _⟩, ⟨hu, _⟩, ⟨hc, _⟩⟩ := h
  simp only [itemChunks, segFieldWidths, List.map_cons, List.map_nil,
    padList_length _ _ ha, padList_length _ _ hn, padList_length _ _ hq,
    padList_length _ _ hu, padList_length _ _ hc]

theorem buildItem_itemFields (it : ItemInfo) (h : wfItem it) :
    buildItem (itemFieldsOf it) = it := by
  cases it with
  | mk a n q u c =>
    obtain ⟨⟨_, ha⟩, ⟨_, hn⟩, ⟨_, hq⟩, ⟨_, hu⟩, ⟨_, hc⟩⟩ := h
    have ha2 : stripPad a = a := ha
    have hn2 : stripPad n = n := hn
    have hq2 : stripPad q = q := hq
    have hu2 : stripPad u = u := hu
    have hc2 : stripPad c = c := hc
    simp only [buildItem, itemFieldsOf, itemChunks, ItemInfo.mk.injEq]
    exact ⟨stripPad_mk_padList 3 a ha2, stripPad_mk_padList 10 n hn2,
      stripPad_mk_padList 4 q hq2, stripPad_mk_padList 4 u hu2,
      stripPad_mk_padList 5 c hc2⟩

theorem readItemsFuel_serialized (items : List ItemInfo) (fuel : Nat)
    (rest : List Char) (offset : Nat)
    (hwf : ∀ it ∈ items, wfItem it)
    (hfuel : ((items.map serializeItem).flatten ++ rest).length < fuel)
    (hstop : ∀ c t, rest = c :: t → c ≠ segTypeCode SegmentType.item) :
    readItemsFuel fuel ((items.map serializeItem).flatten ++ rest) offset =
      Except.ok (items.map itemFieldsOf, rest, offset + items.length * 27) := by
  induction items generalizing fuel offset with
  | nil =>
    simp only [List.map_nil, List.flatten_nil, List.nil_append,
      List.length_nil, Nat.zero_mul, Nat.add_zero] at hfuel ⊢
    cases rest with
    | nil =>
      cases fuel with
      | zero => simp at hfuel
      | succ f => rfl
    | cons c t =>
      cases fuel with
      | zero => simp at hfuel
      | succ f =>
        unfold readItemsFuel
        rw [if_neg (hstop c t rfl)]
  | cons it its ih =>
    cases fuel with
    | zero => simp at hfuel
    | succ f =>
      simp only [List.map_cons, List.flatten_cons, serializeItem,
        List.cons_append, List.append_assoc] at hfuel ⊢
      unfold readItemsFuel
      rw [if_pos rfl, ← itemChunks_lengths it (hwf it (List.mem_cons_self it its)),
        readFields_chunks]
      dsimp only
      rw [ih f (offset + 1 + segWidth SegmentType.item)
        (fun x hx => hwf x (List.mem_cons_of_mem it hx))
        (by
          simp only [List.length_cons, List.length_append] at hfuel ⊢
          omega)]
      simp only [List.map_cons, List.length_cons, Except.ok.injEq,
        Prod.mk.injEq, true_and, itemFieldsOf]
      have hw : segWidth SegmentType.item = 26 := rfl
      rw [hw]
      ring

theorem segmentAll_itemsStream (items : List ItemInfo)
    (hwf : ∀ it ∈ items, wfItem it) :
    segmentAll (itemsStream items) =
      Except.ok ⟨headerChunks.map String.mk, patientChunks.map String.mk,
        orderChunks.map String.mk, doctorChunks.map String.mk,
        items.map itemFieldsOf⟩ := by
  unfold itemsStream segmentAll
  simp only [List.cons_append, List.append_assoc]
  rw [readSegment_chunks SegmentType.header headerChunks _ 0 (by rfl)]
  dsimp only
  rw [readSegment_chunks SegmentType.patient patientChunks _ _ (by rfl)]
  dsimp only
  rw [readSegment_chunks SegmentType.order orderChunks _ _ (by rfl)]
  dsimp only
  rw [readSegment_chunks SegmentType.doctor doctorChunks _ _ (by rfl)]
  dsimp only
  unfold readItems
  rw [readItemsFuel_serialized items _ _ _ hwf (Nat.lt_succ_self _)
    (by
      intro c t h hc
      injection h with h1 h2
      rw [← h1] at hc
      exact absurd hc (by decide))]
  dsimp only
  rfl

/-! ## Claim theorem (order preservation) -/

/-- C3: for every input whose item lines occur in source order, the
parsed record's `item_group.item_info` is exactly that sequence in that
order: the parser never reorders repeating item lines. -/
theorem C3_item_order_preserved (items : List ItemInfo)
    (hwf : ∀ it ∈ items, wfItem it) (r : ParsedRecord)
    (h : parseTelegram (itemsStream items) = Except.ok r) :
    r.content.item_group.item_info = items := by
  obtain ⟨segs, hs, he, hnil⟩ := parse_ok_cases _ _ h
  rw [segmentAll_itemsStream items hwf] at hs
  injection hs with hsegs
  rw [he, ← hsegs]
  simp only [buildRecord]
  rw [List.map_map]
  have hmap : items.map (buildItem ∘ itemFieldsOf) = items.map id :=
    List.map_congr_left (fun it hit => buildItem_itemFields it (hwf it hit))
  rw [hmap, List.map_id]

/-- C3 witness: the stream carrying items A, B, C in that order parses to
a record whose item list is exactly [A, B, C]. -/
theorem C3_item_order_preserved_witness :
    tripleRecord.content.item_group.item_info = tripleItems :=
  C3_item_order_preserved tripleItems (by decide) tripleRecord rfl

end DrugOrder
